import Mathlib

/-!
Shallow embedding of the tg_rss bot (src/bot.py) and proofs about it.

The embedding models:
- the Feed Registry (load_feeds, save_feeds, RSSFeedMonitor.add_feed,
  RSSFeedMonitor.remove_feed, RSSFeedMonitor.reload_feeds);
- the channel-id normalization in RSSFeedMonitor.post_entry;
- the description cleaner clean_html and the truncation in post_entry;
- the date-line selection in post_entry;
- the dedup ledger handling in RSSFeedMonitor.check_feed.

File-system writes and network dispatch are effectful in the source; each
effect's outcome is passed in as an explicit value, and the persisted
file's content is carried as part of an explicit registry state.
-/

/-- A feed record, the two-field dict of url and name that bot.py keeps. -/
structure FeedConfig where
  url : String
  name : String
deriving Repr, DecidableEq

/-- State of the registry: the in-memory list RSSFeedMonitor.self.feeds and
the content of the persisted file rss_feeds.json (as the list it parses to;
a missing or corrupt file loads as the empty list, so disk is the list
load_feeds would return). -/
structure Registry where
  feeds : List FeedConfig
  disk : List FeedConfig
deriving Repr, DecidableEq

/-- Outcome of one attempt to write the registry file. save_feeds opens the
file with mode w, which truncates it, and only then runs json.dump, so an
exception can strike at three distinct points: before the open truncated
the file (the previous content is intact), in the middle of the dump (the
file holds a truncated or partial JSON text), or after the dump completed,
for example while the with block closes the file (the new content is fully
on disk although False is returned). -/
inductive WriteOutcome where
  | success
  | failKeep
  | failCorrupt
  | failWritten
deriving Repr, DecidableEq

/-- save_feeds (bot.py lines 54-62): attempts to write the in-memory list to
the file and reports success. The surrounding file system's outcome is the
explicit argument w. The disk component always holds the list load_feeds
would read back, so a mid-write failure leaves the empty list (a truncated
or partial JSON text fails json.load and is treated as empty), an
open-failure leaves the previous content, and a failure after a completed
dump leaves the new content. -/
def save_feeds (w : WriteOutcome) (feeds disk : List FeedConfig) :
    Bool × List FeedConfig :=
  match w with
  | .success => (true, feeds)
  | .failKeep => (false, disk)
  | .failCorrupt => (false, [])
  | .failWritten => (false, feeds)

/-- load_feeds (bot.py lines 43-51): reads the persisted file; a missing or
corrupt file yields the empty list, so on this state the result is exactly
the disk component. -/
def load_feeds (r : Registry) : List FeedConfig :=
  r.disk

/-- RSSFeedMonitor.reload_feeds (bot.py lines 126-129): self.feeds = load_feeds(). -/
def reload_feeds (r : Registry) : Registry :=
  { r with feeds := load_feeds r }

/-- RSSFeedMonitor.add_feed (bot.py lines 131-144). Returns the boolean the
method returns together with the registry state after the call. The source
first scans self.feeds for a url match (returning False without touching
state), then appends the new record, then calls save_feeds; on a failed save
it returns False with the appended record still in self.feeds. -/
def add_feed (w : WriteOutcome) (r : Registry) (url name : String) : Bool × Registry :=
  if r.feeds.any (fun f => f.url == url) then
    (false, r)
  else
    let feeds' := r.feeds ++ [⟨url, name⟩]
    let s := save_feeds w feeds' r.disk
    (s.1, ⟨feeds', s.2⟩)

/-- Deletion of the first record with the given url, as the loop of
remove_feed performs with del self.feeds[i]; none when no record matches. -/
def removeFirst (url : String) : List FeedConfig → Option (List FeedConfig)
  | [] => none
  | f :: fs =>
    if f.url == url then some fs
    else (removeFirst url fs).map (fun fs' => f :: fs')

/-- RSSFeedMonitor.remove_feed (bot.py lines 146-154). The source deletes the
first matching record, then calls save_feeds; on success it returns True, on
a failed save it breaks out and returns False with the deletion still
applied to self.feeds; with no match it returns False untouched. -/
def remove_feed (w : WriteOutcome) (r : Registry) (url : String) : Bool × Registry :=
  match removeFirst url r.feeds with
  | none => (false, r)
  | some feeds' =>
    let s := save_feeds w feeds' r.disk
    (s.1, ⟨feeds', s.2⟩)

/-- One registry operation, with the write outcome its save will see. -/
inductive RegOp where
  | addOp (w : WriteOutcome) (url name : String)
  | removeOp (w : WriteOutcome) (url : String)
  | reloadOp
deriving Repr, DecidableEq

/-- Apply one registry operation to the state, dropping the returned boolean. -/
def apply_op (r : Registry) : RegOp → Registry
  | .addOp w u n => (add_feed w r u n).2
  | .removeOp w u => (remove_feed w r u).2
  | .reloadOp => reload_feeds r

/-- Run a sequence of registry operations from a state. -/
def run_ops (r : Registry) : List RegOp → Registry
  | [] => r
  | op :: ops => run_ops (apply_op r op) ops

/-- The urls of a feed list, in order. -/
def urls (l : List FeedConfig) : List String :=
  l.map FeedConfig.url

/-- A parsed feed entry as post_entry and check_feed consume it. Fields the
source reads with entry.get or hasattr are Options: none is an absent (or
None-valued) field, some a present one; a present-but-empty id or link is
some of the empty string. Parsed timestamps are modelled as seconds (the
source converts struct_time via time.mktime before formatting). -/
structure Entry where
  id : Option String := none
  link : Option String := none
  title : Option String := none
  description : Option String := none
  published_parsed : Option Nat := none
  updated_parsed : Option Nat := none
deriving Repr, DecidableEq

/-- The identifier check_feed computes at line 189:
entry.get of id, defaulting to entry.get of link, defaulting to the
empty string. -/
def entry_id (e : Entry) : String :=
  match e.id with
  | some s => s
  | none =>
    match e.link with
    | some s => s
    | none => ""

/-- Result of feedparser.parse on a fetched body: the bozo flag and the
entry list, which is all check_feed reads from it. -/
structure ParsedFeed where
  bozo : Bool := false
  entries : List Entry := []
deriving Repr, DecidableEq

/-- The per-entry step of check_feed (bot.py lines 188-197), acting on the
pair of the posted_articles ledger and the list of entry ids for which a
dispatch was attempted this call. An entry with empty id, or already in the
ledger, is skipped; otherwise post_entry is attempted (outcome dispatch_ok)
and the id is added to the ledger only on success. -/
def process_entry (st : List String × List String) (e : Entry) (dispatch_ok : Bool) :
    List String × List String :=
  let eid := entry_id e
  if eid == "" || st.1.contains eid then st
  else if dispatch_ok then (eid :: st.1, st.2 ++ [eid])
  else (st.1, st.2 ++ [eid])

/-- RSSFeedMonitor.check_feed (bot.py lines 169-202) after the GET returned
with the given HTTP status and, when read, a body parsing to feed. Network
errors and all other exceptions are caught and leave the ledger untouched,
exactly like the early returns, so the status argument covers the error
paths as well. Returns the new ledger and the dispatch attempts made. The
source iterates reversed(feed.entries[:1]): at most the first entry. -/
def check_feed (ledger : List String) (status : Nat) (feed : ParsedFeed)
    (dispatch_ok : Bool) : List String × List String :=
  if status != 200 then (ledger, [])
  else if feed.bozo then (ledger, [])
  else ((feed.entries.take 1).reverse).foldl (fun st e => process_entry st e dispatch_ok)
    (ledger, [])

/-- RSSFeedMonitor.check_all_feeds for one pass: one (status, parsed feed,
dispatch outcome) triple per registered feed, folded over the ledger.
Per-feed exceptions are caught by the loop (lines 162-167) and leave the
ledger unchanged, which the status argument already covers. -/
def check_all_feeds (ledger : List String) (results : List (Nat × ParsedFeed × Bool)) :
    List String :=
  results.foldl (fun l r => (check_feed l r.1 r.2.1 r.2.2).1) ledger

/-- Whitespace as both str.strip (Python) and the text fragments here use it. -/
def isSpace (c : Char) : Bool :=
  c == ' ' || c == '\t' || c == '\n' || c == '\r'

/-- Python str.strip with no argument: drop leading and trailing whitespace. -/
def pyStrip (s : List Char) : List Char :=
  ((s.dropWhile isSpace).reverse.dropWhile isSpace).reverse

/-- Text fragments of an HTML string in document order, as html.parser feeds
them to BeautifulSoup: characters between a matching pair of angle brackets
are markup and produce a fragment boundary, everything else is text. The
boolean is the inside-a-tag state, the accumulator the current fragment in
reverse. Modelled for markup made of plain tags, without character
references or comments (none appear in the claims' inputs). -/
def textFragments : List Char → Bool → List Char → List (List Char)
  | [], _, acc => [acc.reverse]
  | c :: cs, true, acc =>
    if c == '>' then textFragments cs false acc
    else textFragments cs true acc
  | c :: cs, false, acc =>
    if c == '<' then acc.reverse :: textFragments cs true []
    else textFragments cs false (c :: acc)

/-- soup.get_text with separator a single space and strip true (bot.py line
72): each fragment stripped, whitespace-only fragments dropped, the rest
joined by single spaces. -/
def get_text (s : List Char) : List Char :=
  List.intercalate [' ']
    (((textFragments s false []).map pyStrip).filter (fun f => !f.isEmpty))

/-- Python str.replace for a single-character pattern, as the three escape
calls of clean_html use it. -/
def replaceChar (c : Char) (rep : List Char) : List Char → List Char
  | [] => []
  | x :: xs => (if x == c then rep else [x]) ++ replaceChar c rep xs

/-- The escape chain of clean_html line 75: replace ampersand, then the left
angle bracket, then the right one, in that order. -/
def escapeSeq (s : List Char) : List Char :=
  replaceChar '>' "&gt;".data
    (replaceChar '<' "&lt;".data
      (replaceChar '&' "&amp;".data s))

/-- The intended per-character escape map: what escaping should do to each
single character so that no substituted text is escaped again. -/
def escapeChar (c : Char) : List Char :=
  if c == '&' then "&amp;".data
  else if c == '<' then "&lt;".data
  else if c == '>' then "&gt;".data
  else [c]

/-- Character-wise escaping of a whole string. -/
def escapeCharwise : List Char → List Char
  | [] => []
  | c :: cs => escapeChar c ++ escapeCharwise cs

/-- clean_html (bot.py lines 65-77): empty input returns empty, otherwise
strip markup with get_text and escape the three special characters. -/
def clean_html (s : List Char) : List Char :=
  if s.isEmpty then [] else escapeSeq (get_text s)

/-- The truncation of post_entry line 226: first 200 characters plus an
ellipsis marker when the cleaned description is longer than 200, unchanged
otherwise. -/
def short_description (clean : List Char) : List Char :=
  if clean.length > 200 then clean.take 200 ++ "...".data else clean

/-- The timestamp pick of post_entry lines 208-212: the parsed published
time when present, else the parsed updated time, else none. -/
def pub_date (e : Entry) : Option Nat :=
  match e.published_parsed with
  | some t => some t
  | none => e.updated_parsed

/-- Rendering of pub_date.strftime: modelled as an injective rendering of
the chosen timestamp; the claims concern which timestamp is chosen and
whether the line appears, not the digits of the format. -/
def strftime (t : Nat) : String :=
  toString t

/-- The date_str of post_entry line 215: a newline-led date line when a
timestamp was found, the empty string otherwise. -/
def date_str (e : Entry) : String :=
  match pub_date e with
  | some t => "\n📅 " ++ strftime t
  | none => ""

/-- The first line of the message built at lines 229-230: the feed label
followed directly by date_str, so the date line is present in the message
exactly when date_str is nonempty. -/
def header_line (feed_name : String) (e : Entry) : String :=
  "📢 <b>" ++ feed_name ++ "</b>" ++ date_str e

/-- Python str.isdigit restricted to the ASCII digits the claims use:
nonempty and all characters digits. -/
def pyIsDigit (s : List Char) : Bool :=
  !s.isEmpty && s.all Char.isDigit

/-- Python lstrip with a minus argument: drop every leading minus sign. -/
def lstripMinus (s : List Char) : List Char :=
  s.dropWhile (fun c => c == '-')

/-- Whether the channel id starts with the at sign, as startswith checks. -/
def startsWithAt (s : List Char) : Bool :=
  match s with
  | c :: _ => c == '@'
  | [] => false

/-- The channel-id normalization of post_entry lines 236-239: when the id
neither starts with the at sign nor, after stripping every leading minus,
consists of digits, an at sign is prepended; otherwise it is unchanged. -/
def normalize_channel_id (s : List Char) : List Char :=
  if !startsWithAt s && !pyIsDigit (lstripMinus s) then '@' :: s else s

/-- The predicate the spec states for leaving the id unchanged: a leading
at sign, or a purely numeric id with at most one optional leading minus. -/
def specNumericOptNeg (s : List Char) : Bool :=
  match s with
  | '-' :: rest => pyIsDigit rest
  | _ => pyIsDigit s

/-- The spec's unchanged condition for claim C5. -/
def specUnchanged (s : List Char) : Bool :=
  startsWithAt s || specNumericOptNeg s

/-! Helper lemmas about the registry. -/

theorem removeFirst_sublist {u : String} :
    ∀ {l l' : List FeedConfig}, removeFirst u l = some l' → l'.Sublist l := by
  intro l
  induction l with
  | nil => intro l' h; simp [removeFirst] at h
  | cons f fs ih =>
    intro l' h
    simp only [removeFirst] at h
    by_cases hf : (f.url == u) = true
    · rw [if_pos hf] at h
      cases h
      exact List.sublist_cons_self f fs
    · rw [if_neg hf] at h
      cases hrf : removeFirst u fs with
      | none => rw [hrf] at h; simp at h
      | some fs' =>
        rw [hrf] at h
        simp only [Option.map_some'
          ] at h
        cases h
        exact List.Sublist.cons₂ f (ih hrf)

theorem not_mem_urls_of_any_eq_false {l : List FeedConfig} {u : String}
    (h : l.any (fun f => f.url == u) = false) : u ∉ urls l := by
  intro hc
  obtain ⟨f, hf, hfu⟩ := List.mem_map.mp hc
  have ht : l.any (fun f => f.url == u) = true :=
    List.any_eq_true.mpr ⟨f, hf, by simp [hfu]⟩
  rw [h] at ht
  exact absurd ht (by simp)

/-- The invariant of claim C3 on a registry state: the in-memory list and
the persisted list both carry pairwise-distinct urls. -/
def RegInv (r : Registry) : Prop :=
  (urls r.feeds).Nodup ∧ (urls r.disk).Nodup

theorem regInv_apply_op {r : Registry} (op : RegOp) (h : RegInv r) :
    RegInv (apply_op r op) := by
  obtain ⟨hm, hd⟩ := h
  cases op with
  | addOp w u n =>
    simp only [apply_op, add_feed]
    by_cases hdup : (r.feeds.any (fun f => f.url == u)) = true
    · rw [if_pos hdup]; exact ⟨hm, hd⟩
    · rw [if_neg hdup]
      have hnotin : u ∉ urls r.feeds :=
        not_mem_urls_of_any_eq_false (Bool.eq_false_iff.mpr hdup)
      have hnd : (urls (r.feeds ++ [⟨u, n⟩])).Nodup := by
        simp only [urls, List.map_append, List.map_cons, List.map_nil]
        rw [List.nodup_append]
        exact ⟨hm, List.nodup_singleton u, by
          intro x hx hxu
          simp only [List.mem_singleton] at hxu
          exact hnotin (hxu ▸ hx)⟩
      cases w with
      | success => exact ⟨hnd, hnd⟩
      | failKeep => exact ⟨hnd, hd⟩
      | failCorrupt => exact ⟨hnd, by simp [urls, save_feeds]⟩
      | failWritten => exact ⟨hnd, hnd⟩
  | removeOp w u =>
    simp only [apply_op, remove_feed]
    cases hrf : removeFirst u r.feeds with
    | none => exact ⟨hm, hd⟩
    | some l' =>
      have hnd : (urls l').Nodup :=
        List.Nodup.sublist (List.Sublist.map FeedConfig.url (removeFirst_sublist hrf)) hm
      cases w with
      | success => exact ⟨hnd, hnd⟩
      | failKeep => exact ⟨hnd, hd⟩
      | failCorrupt => exact ⟨hnd, by simp [urls, save_feeds]⟩
      | failWritten => exact ⟨hnd, hnd⟩
  | reloadOp => exact ⟨hd, hd⟩

theorem regInv_run_ops {r : Registry} (ops : List RegOp) (h : RegInv r) :
    RegInv (run_ops r ops) := by
  induction ops generalizing r with
  | nil => exact h
  | cons op ops ih => exact ih (regInv_apply_op op h)

/-! Claim theorems for the Feed Registry. -/

/-- C1 counterexample: starting from an empty registry, an add whose
persistence write is interrupted mid-dump returns false yet leaves the
appended record in the in-memory list (no rollback); likewise a remove
whose write is interrupted returns false with the deletion already
applied. This refutes the claim that every false-returning call leaves the
in-memory sequence unchanged. -/
theorem c1_counterexample :
    (add_feed .failCorrupt ⟨[], []⟩ "u" "n").1 = false ∧
      (add_feed .failCorrupt ⟨[], []⟩ "u" "n").2.feeds ≠ ([] : List FeedConfig) ∧
      (remove_feed .failCorrupt ⟨[⟨"u", "n"⟩], [⟨"u", "n"⟩]⟩ "u").1 = false ∧
      (remove_feed .failCorrupt ⟨[⟨"u", "n"⟩], [⟨"u", "n"⟩]⟩ "u").2.feeds
        ≠ [(⟨"u", "n"⟩ : FeedConfig)] := by
  refine ⟨rfl, by decide, rfl, by decide⟩

/-- C1, amended: a failed add or remove due to a duplicate or missing url
leaves the registry state exactly unchanged, but a failed persistence
write — whatever state it leaves the file in — returns false with the
mutation still applied in memory: the appended record is not rolled back
and the deletion remains applied. -/
theorem c1_failed_mutation_state (w : WriteOutcome) (r : Registry) (u n : String) :
    (r.feeds.any (fun f => f.url == u) = true → add_feed w r u n = (false, r)) ∧
      (removeFirst u r.feeds = none → remove_feed w r u = (false, r)) ∧
      (w ≠ .success → r.feeds.any (fun f => f.url == u) = false →
        (add_feed w r u n).1 = false ∧
          (add_feed w r u n).2.feeds = r.feeds ++ [⟨u, n⟩]) ∧
      (∀ l, w ≠ .success → removeFirst u r.feeds = some l →
        (remove_feed w r u).1 = false ∧
          (remove_feed w r u).2.feeds = l) := by
  refine ⟨?_, ?_, ?_, ?_⟩
  · intro h
    simp [add_feed, h]
  · intro h
    simp [remove_feed, h]
  · intro hw h
    refine ⟨?_, by simp [add_feed, h]⟩
    cases w with
    | success => exact absurd rfl hw
    | failKeep => simp [add_feed, h, save_feeds]
    | failCorrupt => simp [add_feed, h, save_feeds]
    | failWritten => simp [add_feed, h, save_feeds]
  · intro l hw h
    refine ⟨?_, by simp [remove_feed, h]⟩
    cases w with
    | success => exact absurd rfl hw
    | failKeep => simp [remove_feed, h, save_feeds]
    | failCorrupt => simp [remove_feed, h, save_feeds]
    | failWritten => simp [remove_feed, h, save_feeds]

/-- C1 witness: the amended statement evaluated at a duplicate add and at
the concrete failed-write add of the counterexample. -/
theorem c1_witness :
    (add_feed .success ⟨[⟨"u", "n"⟩], [⟨"u", "n"⟩]⟩ "u" "x"
        = (false, ⟨[⟨"u", "n"⟩], [⟨"u", "n"⟩]⟩)) ∧
      (add_feed .failCorrupt ⟨[], []⟩ "u" "n").2.feeds = [⟨"u", "n"⟩] := by
  have h1 := (c1_failed_mutation_state .success ⟨[⟨"u", "n"⟩], [⟨"u", "n"⟩]⟩ "u" "x").1
  have h2 := (c1_failed_mutation_state .failCorrupt ⟨[], []⟩ "u" "n").2.2.1
  exact ⟨h1 (by decide), by simpa using (h2 (by decide) (by decide)).2⟩

/-- C3: starting from the state the constructor builds by loading the
persisted file (in-memory list equal to the loaded list), any sequence of
add, remove and reload operations keeps the in-memory urls pairwise
distinct, provided the initially loaded list had pairwise-distinct urls. -/
theorem c3_registry_urls_nodup (init : List FeedConfig) (ops : List RegOp)
    (h : (urls init).Nodup) :
    (urls (run_ops ⟨init, init⟩ ops).feeds).Nodup :=
  (regInv_run_ops ops ⟨h, h⟩).1

/-- C3 witness: a concrete operation sequence with a successful add, a
failed add, a duplicate add, a remove with a failed write, and a reload. -/
theorem c3_witness :
    (urls [(⟨"a", "A"⟩ : FeedConfig), ⟨"b", "B"⟩]).Nodup ∧
      (urls (run_ops ⟨[⟨"a", "A"⟩, ⟨"b", "B"⟩], [⟨"a", "A"⟩, ⟨"b", "B"⟩]⟩
        [.addOp .success "c" "C", .addOp .failCorrupt "d" "D",
         .addOp .success "b" "B2", .removeOp .failKeep "a", .reloadOp]).feeds).Nodup :=
  ⟨by decide, c3_registry_urls_nodup _ _ (by decide)⟩

/-- C4: whenever add_feed or remove_feed returns true, the persisted state
equals the in-memory state, so reloading immediately afterwards leaves the
in-memory feed sequence exactly as it was before the reload. -/
theorem c4_reload_roundtrip (w : WriteOutcome) (r : Registry) (u n : String) :
    ((add_feed w r u n).1 = true →
      (reload_feeds (add_feed w r u n).2).feeds = (add_feed w r u n).2.feeds) ∧
      ((remove_feed w r u).1 = true →
        (reload_feeds (remove_feed w r u).2).feeds = (remove_feed w r u).2.feeds) := by
  constructor
  · intro h
    simp only [add_feed] at h ⊢
    by_cases hdup : (r.feeds.any (fun f => f.url == u)) = true
    · rw [if_pos hdup] at h; exact absurd h (by simp)
    · rw [if_neg hdup] at h ⊢
      cases w with
      | success => simp [save_feeds, reload_feeds, load_feeds]
      | failKeep => exact absurd h (by simp [save_feeds])
      | failCorrupt => exact absurd h (by simp [save_feeds])
      | failWritten => exact absurd h (by simp [save_feeds])
  · intro h
    simp only [remove_feed] at h ⊢
    cases hrf : removeFirst u r.feeds with
    | none => rw [hrf] at h; simp at h
    | some l' =>
      rw [hrf] at h
      cases w with
      | success => simp [save_feeds, reload_feeds, load_feeds]
      | failKeep => simp [save_feeds] at h
      | failCorrupt => simp [save_feeds] at h
      | failWritten => simp [save_feeds] at h

/-- C4 witness: a successful add on the empty registry followed by a
reload keeps the in-memory list. -/
theorem c4_witness :
    (add_feed .success ⟨[], []⟩ "u" "n").1 = true ∧
      (reload_feeds (add_feed .success ⟨[], []⟩ "u" "n").2).feeds
        = (add_feed .success ⟨[], []⟩ "u" "n").2.feeds :=
  ⟨by decide, (c4_reload_roundtrip .success ⟨[], []⟩ "u" "n").1 (by decide)⟩

/-! Claim theorems for the Feed Fetcher status handling. -/

/-- C2 counterexample: the status 204 lies in the 2xx range, yet check_feed
rejects it and considers no entry (ledger unchanged, no dispatch attempt),
refuting the claim that any 2xx response is accepted. -/
theorem c2_counterexample :
    (200 ≤ 204 ∧ 204 < 300) ∧
      check_feed ["keep"] 204 ⟨false, [{ id := some "x" }]⟩ true = (["keep"], []) :=
  ⟨by decide, rfl⟩

/-- C2, amended: a response whose HTTP status is anything other than exactly
200 is rejected: the ledger is unchanged and no dispatch is attempted that
cycle; a status-200 response is accepted and its parsed body's entries are
processed (check_feed is a total function: every error path is an early
return, never a fatal error). -/
theorem c2_only_status_200_accepted (ledger : List String) (status : Nat)
    (feed : ParsedFeed) (ok : Bool) :
    (status ≠ 200 → check_feed ledger status feed ok = (ledger, [])) ∧
      (feed.bozo = false →
        check_feed ledger 200 feed ok
          = ((feed.entries.take 1).reverse).foldl
              (fun st e => process_entry st e ok) (ledger, [])) := by
  constructor
  · intro h
    simp [check_feed, h]
  · intro hb
    simp [check_feed, hb]

/-- C2 witness: a 404 response leaves the ledger alone and attempts
nothing; a 200 response with one well-formed entry processes it. -/
theorem c2_witness :
    check_feed ["keep"] 404 ⟨false, [{ id := some "x" }]⟩ true = (["keep"], []) ∧
      check_feed [] 200 ⟨false, [{ id := some "x" }]⟩ true = (["x"], ["x"]) := by
  refine ⟨(c2_only_status_200_accepted ["keep"] 404 _ true).1 (by decide), ?_⟩
  rw [(c2_only_status_200_accepted [] 200 ⟨false, [{ id := some "x" }]⟩ true).2 rfl]
  decide

/-! Claim theorems for the channel-id normalization. -/

/-- C5 counterexample: an id with two leading minus signs before digits is
not a purely numeric optionally-negative id, yet the code leaves it
unchanged, because lstrip removes every leading minus before the digit
test. -/
theorem c5_counterexample :
    normalize_channel_id "--123".data = "--123".data ∧
      specUnchanged "--123".data = false := by
  exact ⟨by decide, by decide⟩

/-- C5, amended: the id is left unchanged exactly when it starts with the
at sign or when removing all of its leading minus signs (not just one)
leaves a nonempty digit string; in every other case the at sign is
prepended. -/
theorem c5_normalization (s : List Char) :
    (normalize_channel_id s = s
        ↔ (startsWithAt s || pyIsDigit (lstripMinus s)) = true) ∧
      ((startsWithAt s || pyIsDigit (lstripMinus s)) = false →
        normalize_channel_id s = '@' :: s) := by
  have hcond : (!startsWithAt s && !pyIsDigit (lstripMinus s))
      = !(startsWithAt s || pyIsDigit (lstripMinus s)) := by
    cases startsWithAt s <;> cases pyIsDigit (lstripMinus s) <;> rfl
  cases hc : startsWithAt s || pyIsDigit (lstripMinus s) with
  | true =>
    have hn : normalize_channel_id s = s := by
      simp [normalize_channel_id, hcond, hc]
    refine ⟨by simp [hn], ?_⟩
    intro h
    exact absurd h (by simp)
  | false =>
    have hn : normalize_channel_id s = '@' :: s := by
      simp [normalize_channel_id, hcond, hc]
    refine ⟨?_, fun _ => hn⟩
    rw [hn]
    constructor
    · intro h
      exact absurd h (List.cons_ne_self '@' s)
    · intro h
      exact absurd h (by simp)

/-- C5 witness: the four examples of the spec, through the amended rule. -/
theorem c5_witness :
    normalize_channel_id "123".data = "123".data ∧
      normalize_channel_id "@already".data = "@already".data ∧
      normalize_channel_id "-100123".data = "-100123".data ∧
      normalize_channel_id "mychannel".data = "@mychannel".data :=
  ⟨(c5_normalization "123".data).1.mpr (by decide),
   (c5_normalization "@already".data).1.mpr (by decide),
   (c5_normalization "-100123".data).1.mpr (by decide),
   ((c5_normalization "mychannel".data).2 (by decide)).trans (by decide)⟩

/-! Claim theorems for the Content Formatter. -/

/-- C7: the cleaned description is truncated to its first 200 characters
with an ellipsis marker appended exactly when longer than 200 characters
(giving length 203), and returned unchanged otherwise. -/
theorem c7_truncation (clean : List Char) :
    (clean.length ≤ 200 → short_description clean = clean) ∧
      (clean.length > 200 →
        short_description clean = clean.take 200 ++ "...".data ∧
          (short_description clean).length = 203) := by
  constructor
  · intro h
    simp only [short_description]
    rw [if_neg (by omega)]
  · intro h
    simp only [short_description]
    rw [if_pos h]
    refine ⟨rfl, ?_⟩
    simp only [List.length_append, List.length_take, List.length_cons, List.length_nil]
    omega

/-- C7 witness: a 250-character description truncates to the 200-character
prefix plus the three-character marker (total length 203); a 150-character
description is unchanged. -/
theorem c7_witness :
    short_description (List.replicate 150 'a') = List.replicate 150 'a' ∧
      (short_description (List.replicate 250 'a')).length = 203 ∧
      short_description (List.replicate 250 'a')
        = List.replicate 200 'a' ++ "...".data := by
  have h150 : (List.replicate 150 'a').length ≤ 200 := by
    rw [List.length_replicate]
    omega
  have h250 : (List.replicate 250 'a').length > 200 := by
    rw [List.length_replicate]
    omega
  refine ⟨(c7_truncation _).1 h150, ((c7_truncation _).2 h250).2, ?_⟩
  rw [((c7_truncation (List.replicate 250 'a')).2 h250).1]
  rw [List.take_replicate, min_eq_left (by omega)]

/-- C8: the date line of the formatted message is computed from the
published time when present, falls back to the updated time when only that
is present, and is omitted entirely (the header line carries no date
segment) when neither is present. -/
theorem c8_date_line (e : Entry) (n : String) :
    (∀ t, e.published_parsed = some t → date_str e = "\n📅 " ++ strftime t) ∧
      (e.published_parsed = none → ∀ t, e.updated_parsed = some t →
        date_str e = "\n📅 " ++ strftime t) ∧
      (e.published_parsed = none → e.updated_parsed = none →
        date_str e = "" ∧ header_line n e = "📢 <b>" ++ n ++ "</b>") := by
  refine ⟨?_, ?_, ?_⟩
  · intro t h
    simp [date_str, pub_date, h]
  · intro hp t hu
    simp [date_str, pub_date, hp, hu]
  · intro hp hu
    have hd : date_str e = "" := by simp [date_str, pub_date, hp, hu]
    exact ⟨hd, by simp [header_line, hd]⟩

/-- C8 witness: an entry with both timestamps uses the published one, an
entry with only an updated timestamp uses it, and an entry with neither
has an empty date line and a bare header. -/
theorem c8_witness :
    date_str { published_parsed := some 5, updated_parsed := some 7 }
        = "\n📅 " ++ strftime 5 ∧
      date_str { updated_parsed := some 7 } = "\n📅 " ++ strftime 7 ∧
      date_str {} = "" ∧ header_line "f" {} = "📢 <b>" ++ "f" ++ "</b>" :=
  ⟨(c8_date_line { published_parsed := some 5, updated_parsed := some 7 } "f").1 5 rfl,
   (c8_date_line { updated_parsed := some 7 } "f").2.1 rfl 7 rfl,
   ((c8_date_line {} "f").2.2 rfl rfl).1,
   ((c8_date_line {} "f").2.2 rfl rfl).2⟩

/-- C9: an entry that reaches the dispatch step (nonempty identifier, not
yet in the ledger) has its identifier in the ledger after the step exactly
when the dispatch succeeded; on failure the ledger is unchanged, so the
identifier stays absent and the entry is retried next pass. -/
theorem c9_seen_iff_dispatch_success (ledger sent : List String) (e : Entry)
    (ok : Bool) (hne : entry_id e ≠ "") (hnm : entry_id e ∉ ledger) :
    (entry_id e ∈ (process_entry (ledger, sent) e ok).1 ↔ ok = true) ∧
      (ok = false → (process_entry (ledger, sent) e ok).1 = ledger) := by
  cases ok with
  | true =>
    have hp : (process_entry (ledger, sent) e true).1 = entry_id e :: ledger := by
      simp [process_entry, hne, hnm]
    refine ⟨?_, fun h => absurd h (by simp)⟩
    rw [hp]
    simp
  | false =>
    have hp : (process_entry (ledger, sent) e false).1 = ledger := by
      simp [process_entry, hne, hnm]
    refine ⟨?_, fun _ => hp⟩
    rw [hp]
    simp [hnm]

/-- C9 witness: a fresh entry is in the ledger after a successful dispatch
and absent (ledger unchanged) after a failed one. -/
theorem c9_witness :
    ("e1" ∈ (process_entry ([], []) { id := some "e1" } true).1) ∧
      (process_entry ([], []) { id := some "e1" } false).1 = [] :=
  ⟨(c9_seen_iff_dispatch_success [] [] { id := some "e1" } true (by decide)
      (by simp)).1.mpr rfl,
   (c9_seen_iff_dispatch_success [] [] { id := some "e1" } false (by decide)
      (by simp)).2 rfl⟩

/-! Helper lemmas for the ledger monotonicity claim. -/

theorem process_entry_superset (st : List String × List String) (e : Entry)
    (ok : Bool) :
    (∀ x, x ∈ st.1 → x ∈ (process_entry st e ok).1) ∧
      ("" ∉ st.1 → "" ∉ (process_entry st e ok).1) := by
  by_cases h1 : entry_id e = ""
  · constructor
    · intro x hx
      simpa [process_entry, h1] using hx
    · intro h
      simpa [process_entry, h1] using h
  · by_cases h2 : entry_id e ∈ st.1
    · constructor
      · intro x hx
        simpa [process_entry, h1, h2] using hx
      · intro h
        simpa [process_entry, h1, h2] using h
    · cases ok with
      | true =>
        have hp : process_entry st e true = (entry_id e :: st.1, st.2 ++ [entry_id e]) := by
          simp [process_entry, h1, h2]
        rw [hp]
        refine ⟨fun x hx => List.mem_cons_of_mem _ hx, ?_⟩
        intro hnm hmem
        rcases List.mem_cons.mp hmem with h | h
        · exact h1 h.symm
        · exact hnm h
      | false =>
        have hp : process_entry st e false = (st.1, st.2 ++ [entry_id e]) := by
          simp [process_entry, h1, h2]
        rw [hp]
        exact ⟨fun x hx => hx, fun hnm => hnm⟩

theorem foldl_process_superset (es : List Entry) (ok : Bool) :
    ∀ st : List String × List String,
      (∀ x, x ∈ st.1 → x ∈ (es.foldl (fun s e => process_entry s e ok) st).1) ∧
        ("" ∉ st.1 → "" ∉ (es.foldl (fun s e => process_entry s e ok) st).1) := by
  induction es with
  | nil => exact fun st => ⟨fun x hx => hx, fun h => h⟩
  | cons e es ih =>
    intro st
    have h1 := process_entry_superset st e ok
    have h2 := ih (process_entry st e ok)
    simp only [List.foldl_cons]
    exact ⟨fun x hx => h2.1 x (h1.1 x hx), fun h => h2.2 (h1.2 h)⟩

theorem check_feed_superset (ledger : List String) (status : Nat)
    (feed : ParsedFeed) (ok : Bool) :
    (∀ x, x ∈ ledger → x ∈ (check_feed ledger status feed ok).1) ∧
      ("" ∉ ledger → "" ∉ (check_feed ledger status feed ok).1) := by
  simp only [check_feed]
  by_cases h1 : (status != 200) = true
  · rw [if_pos h1]
    exact ⟨fun x hx => hx, fun h => h⟩
  · rw [if_neg h1]
    by_cases h2 : feed.bozo = true
    · rw [if_pos h2]
      exact ⟨fun x hx => hx, fun h => h⟩
    · rw [if_neg h2]
      exact foldl_process_superset _ ok (ledger, [])

/-- C10: the ledger grows monotonically over a full pass: every identifier
present before is present after, and the empty string never enters the
ledger, because unidentifiable entries are skipped before marking. -/
theorem c10_ledger_monotone (ledger : List String)
    (results : List (Nat × ParsedFeed × Bool)) :
    (∀ x, x ∈ ledger → x ∈ check_all_feeds ledger results) ∧
      ("" ∉ ledger → "" ∉ check_all_feeds ledger results) := by
  induction results generalizing ledger with
  | nil => exact ⟨fun x hx => hx, fun h => h⟩
  | cons r rs ih =>
    simp only [check_all_feeds, List.foldl_cons]
    have h1 := check_feed_superset ledger r.1 r.2.1 r.2.2
    have h2 := ih (check_feed ledger r.1 r.2.1 r.2.2).1
    simp only [check_all_feeds] at h2
    exact ⟨fun x hx => h2.1 x (h1.1 x hx), fun h => h2.2 (h1.2 h)⟩

/-- C10 witness: a pass that posts a fresh entry keeps the old identifier
in the ledger and does not introduce the empty string. -/
theorem c10_witness :
    ("a" ∈ check_all_feeds ["a"] [(200, ⟨false, [{ id := some "x" }]⟩, true)]) ∧
      ("" ∉ check_all_feeds ["a"] [(200, ⟨false, [{ id := some "x" }]⟩, true)]) :=
  ⟨(c10_ledger_monotone ["a"] _).1 "a" (by decide),
   (c10_ledger_monotone ["a"] _).2 (by decide)⟩

/-! Helper lemmas for the cleaner claim. -/

theorem replaceChar_append (c : Char) (rep : List Char) (a b : List Char) :
    replaceChar c rep (a ++ b) = replaceChar c rep a ++ replaceChar c rep b := by
  induction a with
  | nil => rfl
  | cons x xs ih => simp [replaceChar, ih, List.append_assoc]

theorem escapeSeq_eq_escapeCharwise (s : List Char) :
    escapeSeq s = escapeCharwise s := by
  induction s with
  | nil => rfl
  | cons c cs ih =>
    have h1 : replaceChar '&' "&amp;".data (c :: cs)
        = replaceChar '&' "&amp;".data [c] ++ replaceChar '&' "&amp;".data cs := by
      simpa using replaceChar_append '&' "&amp;".data [c] cs
    have hsplit : escapeSeq (c :: cs) = escapeSeq [c] ++ escapeSeq cs := by
      simp only [escapeSeq, h1, replaceChar_append]
    have hone : escapeSeq [c] = escapeChar c := by
      by_cases ha : c = '&'
      · subst ha; decide
      · by_cases hb : c = '<'
        · subst hb; decide
        · by_cases hd : c = '>'
          · subst hd; decide
          · simp [escapeSeq, replaceChar, escapeChar, ha, hb, hd]
    rw [hsplit, hone, ih]
    rfl

/-- C6: cleaning strips all markup, collapsing the whitespace around
markup into single separators, and then escapes exactly the ampersand and
the two angle brackets; escaping the ampersand first makes the replacement
chain equal to a single character-wise escape, so no substituted text is
escaped a second time. The spec's example cleans and escapes as stated. -/
theorem c6_clean_and_escape :
    clean_html "<b>Hi</b> & bye".data = "Hi &amp; bye".data ∧
      clean_html "  <b> Hi  </b> \n x ".data = "Hi x".data ∧
      ∀ s : List Char, escapeSeq s = escapeCharwise s :=
  ⟨by decide, by decide, escapeSeq_eq_escapeCharwise⟩
